import Mathlib

/-!
Verification of the hirami ingestion-and-classification pipeline.

This file shallowly embeds the parts of the repository relevant to the
frozen claims:

* crates/ingestion/src/block_processor.rs  (process_block,
  process_transaction_json, update_builder),
* crates/mev-heuristics/src/detectors.rs   (is_high_priority_fee_outlier,
  is_repeated_sender, is_atomic_multiswap, is_sandwich_pattern),
* crates/mev-heuristics/src/analyzer.rs    (TransactionAnalyzer.analyze,
  calldata summary),
* crates/ingestion/src/validator_tagger.rs (ValidatorTagger.refresh),
* crates/cli/src/main.rs                   (run_ingestion catch-up loop).

Machine integers are modelled as Nat with explicit bounds where overflow
matters; Rust Decimal arithmetic (exact on the u64-sized integers and
half-integers that occur here) is modelled as Rat; fallible code returns
Option or Except.
-/

namespace Hirami

/-! ## Hex parsing (u64::from_str_radix(_, 16) with strip of a 0x marker)

Models the parsing used throughout block_processor.rs:
`u64::from_str_radix(s.strip_prefix("0x").unwrap_or(s), 16)`.
-/

/-- Value of one hexadecimal digit, as in Rust char::to_digit(16). -/
def hexDigitVal (c : Char) : Option Nat :=
  if '0' ≤ c ∧ c ≤ '9' then some (c.toNat - '0'.toNat)
  else if 'a' ≤ c ∧ c ≤ 'f' then some (c.toNat - 'a'.toNat + 10)
  else if 'A' ≤ c ∧ c ≤ 'F' then some (c.toNat - 'A'.toNat + 10)
  else none

/-- Accumulate hex digits left to right; none on the first non-digit. -/
def hexDigitsAux : List Char → Nat → Option Nat
  | [], acc => some acc
  | c :: cs, acc =>
    match hexDigitVal c with
    | some d => hexDigitsAux cs (acc * 16 + d)
    | none => none

/-- Rust u64::from_str_radix(s, 16): an optional leading plus sign, then one
or more hex digits, error on an empty digit string or on overflow past
u64::MAX.  Rust checks overflow at every step; since the accumulated value
only grows, that is equivalent to the final bound check used here. -/
def fromStrRadix16 (s : String) : Option Nat :=
  let cs := match s.data with
    | '+' :: rest => rest
    | cs => cs
  if cs.isEmpty then none
  else (hexDigitsAux cs 0).bind (fun v => if v < 2 ^ 64 then some v else none)

/-- List-level check that a char list starts with the two chars 0x. -/
def hasHexMarker : List Char → Bool
  | '0' :: 'x' :: _ => true
  | _ => false

/-- s.strip_prefix("0x").unwrap_or(s) followed by from_str_radix 16. -/
def parseHexU64 (s : String) : Option Nat :=
  fromStrRadix16 (if hasHexMarker s.data then String.mk (s.data.drop 2) else s)

/-! ## The JSON transaction shape consumed by process_transaction_json

block_processor.rs reads the raw serde_json values of each transaction; the
four fields it touches are modelled here, each as the optional result of
`tx_json[field].as_str()` (none covers both an absent field and a non-string
value). -/

structure TxJson where
  /-- tx_json["hash"].as_str() -/
  hash : Option String
  /-- tx_json["from"].as_str() (from is a Lean keyword, hence fromAddr) -/
  fromAddr : Option String
  /-- tx_json["maxPriorityFeePerGas"].as_str() -/
  maxPriorityFeePerGas : Option String
  /-- tx_json["input"].as_str() -/
  input : Option String
  deriving DecidableEq, Repr

/-- The per-transaction fee value of block_processor.rs lines 229-242: the
field is hex-parsed with 0 for absent/unparsable, rendered to a decimal
string, and re-parsed; the u64 to_string/parse round trip makes that the
parsed-or-zero value. -/
def feeValJson (t : TxJson) : Nat :=
  (t.maxPriorityFeePerGas.bind parseHexU64).getD 0

/-- The median fee list of block_processor.rs lines 245-252: transactions
whose field is absent or unparsable are dropped by filter_map, they do not
contribute a 0. -/
def blockFeesJson (txs : List TxJson) : List Nat :=
  txs.filterMap (fun t => t.maxPriorityFeePerGas.bind parseHexU64)

/-- fees.sort(): Rust's stable ascending sort.  On Nat a sorted permutation
is unique, so insertion sort is the same function. -/
def sortFees (l : List Nat) : List Nat :=
  l.insertionSort (fun a b => a ≤ b)

/-- The median of block_processor.rs lines 255-260, meaningful for a
nonempty list: sort ascending, even length adds the two middle values with
u64 arithmetic — which wraps modulo 2 to the 64 in release builds (debug
builds abort instead) and is reachable because parsed fees range up to
u64::MAX — then halves with truncating division; odd length takes the
middle value. -/
def medianCore (l : List Nat) : Nat :=
  let s := sortFees l
  if s.length % 2 = 0 then
    (s.getD (s.length / 2 - 1) 0 + s.getD (s.length / 2) 0) % 2 ^ 64 / 2
  else s.getD (s.length / 2) 0

/-- The median guarded by the is_empty check of line 254. -/
def medianOf (l : List Nat) : Option Nat :=
  if l.isEmpty then none else some (medianCore l)

/-- Heuristic 1 of process_transaction_json (lines 242-266): inside a
priority_fee_value > 0 guard, compute the block median and push the reason
when priority_fee_value > median * 3 && median > 0; the product median * 3
is u64 multiplication, wrapping modulo 2 to the 64 in release builds (debug
builds abort), which matters once the median passes a third of u64::MAX. -/
def highPriorityFeeTriggerJson (blockTxs : List TxJson) (t : TxJson) : Bool :=
  let fee := feeValJson t
  if 0 < fee then
    let fees := blockFeesJson blockTxs
    if fees.isEmpty then false
    else decide (medianCore fees * 3 % 2 ^ 64 < fee ∧ 0 < medianCore fees)
  else false

/-- Heuristic 2 of process_transaction_json (lines 269-275): count the
transactions whose raw JSON from field equals this transaction's raw JSON
from field (Option String equality: two absent fields compare equal, and
the comparison is case sensitive). -/
def repeatedSenderJson (blockTxs : List TxJson) (t : TxJson) : Bool :=
  decide (3 ≤ (blockTxs.filter (fun u => u.fromAddr == t.fromAddr)).length)

/-- str::contains(pat): pat occurs as a contiguous substring. -/
def containsSub (pat : List Char) : List Char → Bool
  | [] => pat.isEmpty
  | c :: rest => pat.isPrefixOf (c :: rest) || containsSub pat rest

/-- The five-selector set of process_transaction_json line 279. -/
def swapPatternsJson : List String :=
  ["022c0d9f", "472b43f3", "5c11d795", "7ff36ab5", "414bf389"]

/-- Heuristic 3 of process_transaction_json (lines 278-287): scan the raw
JSON input string (which carries its 0x marker and whatever letter case the
node produced; the code neither strips nor lower-cases it). -/
def atomicMultiswapJson (t : TxJson) : Bool :=
  match t.input with
  | none => false
  | some s =>
    decide (2 ≤ (swapPatternsJson.filter (fun p => containsSub p.data s.data)).length)

/-- Heuristic 4 of process_transaction_json (lines 289-301): same raw JSON
from value strictly before and strictly after this index. -/
def sandwichJson (blockTxs : List TxJson) (t : TxJson) (i : Nat) : Bool :=
  match t.fromAddr with
  | none => false
  | some sender =>
    ((blockTxs.take i).any (fun u => u.fromAddr == some sender))
      && ((blockTxs.drop (i + 1)).any (fun u => u.fromAddr == some sender))

/-- The reason list of process_transaction_json, in emission order. -/
def mevReasonsJson (blockTxs : List TxJson) (t : TxJson) (i : Nat) : List String :=
  (if highPriorityFeeTriggerJson blockTxs t then ["high_priority_fee_outlier"] else [])
    ++ (if repeatedSenderJson blockTxs t then ["repeated_sender_sequence"] else [])
    ++ (if atomicMultiswapJson t then ["atomic_multiswap"] else [])
    ++ (if sandwichJson blockTxs t i then ["sandwich_pattern"] else [])

/-! ## Calldata summary and UTF-8 byte slicing

Rust String indexing is by byte; input.len() is the UTF-8 byte length and
the slice expression taking the first 200 bytes panics when byte 200 is not
a character boundary. -/

/-- Rust char::len_utf8. -/
def utf8Width (c : Char) : Nat :=
  if c.toNat < 0x80 then 1
  else if c.toNat < 0x800 then 2
  else if c.toNat < 0x10000 then 3
  else 4

/-- UTF-8 byte length of a char list (Rust str::len). -/
def utf8Bytes : List Char → Nat
  | [] => 0
  | c :: cs => utf8Width c + utf8Bytes cs

/-- The chars spanning the first n bytes; none when byte n falls inside a
char, which is the case where the Rust slice expression panics. -/
def sliceBytes : Nat → List Char → Option (List Char)
  | 0, _ => some []
  | _ + 1, [] => none
  | n + 1, c :: cs =>
    if utf8Width c ≤ n + 1 then (sliceBytes (n + 1 - utf8Width c) cs).map (fun l => c :: l)
    else none

/-- The truncation of block_processor.rs lines 311-319 (and the same shape
in analyzer.rs lines 41-50): keep a string of at most 200 bytes, else the
first 200 bytes followed by an ellipsis marker; none models the panic on a
non-boundary byte 200. -/
def truncate200 (s : String) : Option String :=
  if 200 < utf8Bytes s.data then
    (sliceBytes 200 s.data).map (fun cs => String.mk cs ++ "...")
  else some s

/-- The calldata summary map over the optional JSON field: outer none is the
panic, inner none is an absent field (stored as NULL). -/
def calldataSummaryOpt : Option String → Option (Option String)
  | none => some none
  | some s => (truncate200 s).map some

/-! ## process_transaction_json as a whole -/

structure TxRow where
  txHash : String
  positionIndex : Nat
  senderAddress : String
  maxPriorityFee : String
  calldataSummary : Option String
  isMevCandidate : Bool
  mevReasonCodes : List String
  deriving DecidableEq, Repr

inductive TxError where
  /-- tx_json["hash"].as_str() was none: the anyhow error, the transaction
  is skipped and the block continues. -/
  | missingHash : TxError
  /-- the calldata slice hit a non-boundary byte: a Rust panic. -/
  | slicePanic : TxError
  deriving DecidableEq, Repr

/-- process_transaction_json (block_processor.rs lines 211-344): extract
hash (hard error when absent), sender (the literal unknown when absent),
the fee string, the four heuristics in order, the calldata summary, and
return the row that is inserted. -/
def process_transaction_json (blockTxs : List TxJson) (t : TxJson) (i : Nat) :
    Except TxError TxRow :=
  match t.hash with
  | none => .error .missingHash
  | some h =>
    let sender := t.fromAddr.getD "unknown"
    let fee := feeValJson t
    let reasons := mevReasonsJson blockTxs t i
    match calldataSummaryOpt t.input with
    | none => .error .slicePanic
    | some summary =>
      .ok { txHash := h
            positionIndex := i
            senderAddress := sender
            maxPriorityFee := Nat.repr fee
            calldataSummary := summary
            isMevCandidate := !reasons.isEmpty
            mevReasonCodes := reasons }

/-- The loop body of the total_priority_fees accumulation of process_block
(block_processor.rs lines 119-132): when the field is present and parses,
add it; Decimal addition is exact here (each summand fits u64 and any
JSON-representable block keeps the sum far below Decimal's 96-bit range),
so Nat addition is a faithful model. -/
def totalFeeStep (acc : Nat) (t : TxJson) : Nat :=
  match t.maxPriorityFeePerGas.bind parseHexU64 with
  | some v => acc + v
  | none => acc

/-- The fold of that body over the block's transaction list, from 0. -/
def totalPriorityFeesJson (txs : List TxJson) : Nat :=
  txs.foldl totalFeeStep 0

/-! ## The detector crate (mev-heuristics/src/detectors.rs)

Here the transaction is the already-parsed alloy value: the sender is an
Address (its to_string rendering is canonical per address, so string
equality of renderings is address equality and any two JSON spellings of
one address compare equal), the fee is an already-parsed optional integer,
and the calldata is the raw byte vector. -/

structure TxD where
  /-- tx.from.to_string(): the canonical rendering of the parsed address. -/
  fromAddr : String
  /-- tx.max_priority_fee_per_gas, already numeric. -/
  fee : Option Nat
  /-- tx.input, the raw calldata bytes (each < 256). -/
  input : List Nat
  deriving DecidableEq, Repr

/-- The fee list of is_high_priority_fee_outlier lines 54-57: transactions
without the field are dropped by filter_map. -/
def blockFeesD (txs : List TxD) : List Nat :=
  txs.filterMap (fun t => t.fee)

/-- The Decimal median of detectors.rs lines 63-68: Decimal division by 2
is exact on these values (an integer or a half-integer), so Rat is a
faithful model. -/
def medianCoreD (l : List Nat) : ℚ :=
  let s := sortFees l
  if s.length % 2 = 0 then
    ((s.getD (s.length / 2 - 1) 0 : ℚ) + (s.getD (s.length / 2) 0 : ℚ)) / 2
  else (s.getD (s.length / 2) 0 : ℚ)

/-- is_high_priority_fee_outlier (detectors.rs lines 47-72): return false
when the transaction's own field is absent, false when the fee list is
empty, else compare fee > median * 3.  Note there is no median > 0 test in
this variant. -/
def is_high_priority_fee_outlier (t : TxD) (blockTxs : List TxD) : Bool :=
  match t.fee with
  | none => false
  | some f =>
    let fees := blockFeesD blockTxs
    if fees.isEmpty then false
    else decide (medianCoreD fees * 3 < (f : ℚ))

/-- is_repeated_sender (detectors.rs lines 75-85): count equal rendered
sender addresses. -/
def is_repeated_sender (t : TxD) (blockTxs : List TxD) : Bool :=
  decide (3 ≤ (blockTxs.filter (fun u => u.fromAddr == t.fromAddr)).length)

/-- Lower-case hex digit table of hex::encode. -/
def hexDigitChar (n : Nat) : Char :=
  "0123456789abcdef".data.getD n '0'

/-- hex::encode: two lower-case digits per byte, no 0x marker. -/
def hexEncode (bytes : List Nat) : String :=
  String.mk (bytes.foldr (fun b acc => hexDigitChar (b % 256 / 16) :: hexDigitChar (b % 16) :: acc) [])

/-- The three-selector set of detectors.rs lines 101-105. -/
def swapPatternsD : List String :=
  ["7ff36ab5", "414bf389", "5c11d795"]

/-- is_atomic_multiswap (detectors.rs lines 92-117): empty calldata never
triggers, else scan the lower-case hex encoding of the bytes. -/
def is_atomic_multiswap (t : TxD) : Bool :=
  if t.input.isEmpty then false
  else
    decide (2 ≤ (swapPatternsD.filter
      (fun p => containsSub p.data (hexEncode t.input).data)).length)

/-- The calldata summary of TransactionAnalyzer.analyze (analyzer.rs lines
41-50): none for empty calldata, otherwise the truncation of the hex
encoding; the outer layer again distinguishes the slice panic, which this
path never reaches because hex output is ASCII. -/
def calldataSummaryAnalyzer (input : List Nat) : Option (Option String) :=
  if input.isEmpty then some none
  else (truncate200 (hexEncode input)).map some

/-! ## update_builder (block_processor.rs lines 346-366)

The builders table is modelled as a list of rows keyed by fee_recipient.
The code first runs SELECT EXISTS on the fee_recipient and only when no row
exists issues INSERT OR IGNORE of (fee_recipient, is_known = 0); an
existing row, known or unknown, is never written to. -/

structure BuilderRow where
  feeRecipient : String
  builderName : Option String
  isKnown : Bool
  deriving DecidableEq, Repr

/-- SELECT EXISTS(SELECT 1 FROM builders WHERE fee_recipient = ?). -/
def buildersHas (store : List BuilderRow) (fr : String) : Bool :=
  store.any (fun r => r.feeRecipient == fr)

/-- SELECT the row for a fee recipient. -/
def findBuilder (store : List BuilderRow) (fr : String) : Option BuilderRow :=
  store.find? (fun r => r.feeRecipient == fr)

/-- update_builder: insert the unknown row only when absent. -/
def update_builder (store : List BuilderRow) (fr : String) : List BuilderRow :=
  if buildersHas store fr then store
  else store ++ [{ feeRecipient := fr, builderName := none, isKnown := false }]

/-! ## ValidatorTagger.refresh (validator_tagger.rs lines 52-65)

The DB query runs behind the error-propagating question mark BEFORE
self.africa_fee_recipients.clear(), so a query error returns with the set
untouched; on success the set is cleared and repopulated with the
lower-cased rows (HashSet insert modelled as dedup append; the addresses
exercised are ASCII, where this lower-casing agrees with Rust
to_lowercase). -/

/-- ASCII lower-casing of one char. -/
def asciiLower (c : Char) : Char :=
  if 'A' ≤ c ∧ c ≤ 'Z' then Char.ofNat (c.toNat + 32) else c

/-- ASCII lower-casing of a string. -/
def strLower (s : String) : String :=
  String.mk (s.data.map asciiLower)

/-- Set insert (HashSet::insert up to iteration order). -/
def insertSet (s : List String) (x : String) : List String :=
  if x ∈ s then s else s ++ [x]

/-- refresh: prior set and query outcome in, new set and surfaced error out. -/
def refresh (prior : List String) (q : Except String (List String)) :
    List String × Option String :=
  match q with
  | .error e => (prior, some e)
  | .ok rows => (rows.foldl (fun s r => insertSet s (strLower r)) [], none)

/-! ## The catch-up loop of run_ingestion (cli/src/main.rs lines 150-182)

One polling iteration with chain height H and cursor last_block: when
H > cursor the loop walks every n in cursor+1 ..= H; per n the fetch either
yields a block (whose ingestion then succeeds or fails), reports the block
absent, or fails; only a fetched-and-ingested block advances the cursor,
and no outcome stops the walk. -/

inductive FetchOutcome where
  /-- rpc_client.get_block returned Ok(Some(json)); the flag records whether
  processor.process_block then returned Ok. -/
  | fetched (ingestOk : Bool) : FetchOutcome
  /-- Ok(None): block not found. -/
  | absent : FetchOutcome
  /-- Err(e): transport or RPC failure. -/
  | rpcError : FetchOutcome
  deriving DecidableEq, Repr

/-- The body of the for loop: last_block = block_num only on ingest
success, every other outcome just logs. -/
def catchUpStep (f : Nat → FetchOutcome) (c n : Nat) : Nat :=
  match f n with
  | .fetched true => n
  | _ => c

/-- The for loop over (last_block + 1)..=latest_block, returning the final
cursor; when H ≤ cursor the range is empty, matching the latest > cursor
guard. -/
def catchUpRange (f : Nat → FetchOutcome) (cursor H : Nat) : Nat :=
  (List.range' (cursor + 1) (H - cursor)).foldl (catchUpStep f) cursor

/-- The same loop instrumented: one (n, cursor before, cursor after) entry
per iteration. -/
def catchUpTraceAux (f : Nat → FetchOutcome) : Nat → List Nat → List (Nat × Nat × Nat)
  | _, [] => []
  | c, n :: rest => (n, c, catchUpStep f c n) :: catchUpTraceAux f (catchUpStep f c n) rest

/-- The instrumented walk of one polling iteration. -/
def catchUpTrace (f : Nat → FetchOutcome) (cursor H : Nat) : List (Nat × Nat × Nat) :=
  catchUpTraceAux f cursor (List.range' (cursor + 1) (H - cursor))

/-! ## Helper lemmas -/

/-- One accumulation step adds the parsed-or-zero fee. -/
theorem totalFeeStep_eq (acc : Nat) (t : TxJson) :
    totalFeeStep acc t = acc + feeValJson t := by
  unfold totalFeeStep
  cases h : t.maxPriorityFeePerGas.bind parseHexU64 <;> simp [feeValJson, h]

/-- Folding the fee accumulation of process_block from any accumulator. -/
theorem totalFees_foldl (txs : List TxJson) (acc : Nat) :
    txs.foldl totalFeeStep acc = acc + (txs.map feeValJson).sum := by
  induction txs generalizing acc with
  | nil => simp
  | cons t rest ih =>
    simp only [List.foldl_cons, List.map_cons, List.sum_cons]
    rw [ih, totalFeeStep_eq]
    omega

/-- A row the code just appended is found by the existence query. -/
theorem buildersHas_self (store : List BuilderRow) (fr : String) :
    buildersHas (store ++ [{ feeRecipient := fr, builderName := none, isKnown := false }]) fr
      = true := by
  simp [buildersHas, List.any_append]

/-- The existence query agrees with row lookup. -/
theorem buildersHas_eq_false_iff (store : List BuilderRow) (fr : String) :
    buildersHas store fr = false ↔ findBuilder store fr = none := by
  constructor
  · intro h
    rw [findBuilder, List.find?_eq_none]
    intro r hr hbeq
    have : buildersHas store fr = true := by
      simp only [buildersHas, List.any_eq_true]
      exact ⟨r, hr, hbeq⟩
    rw [h] at this
    exact Bool.false_ne_true this
  · intro h
    rw [findBuilder, List.find?_eq_none] at h
    rcases hb : buildersHas store fr with _ | _
    · rfl
    · simp only [buildersHas, List.any_eq_true] at hb
      rcases hb with ⟨r, hr, hbeq⟩
      exact absurd hbeq (h r hr)

/-- The from_str_radix model never returns a value past u64::MAX. -/
theorem fromStrRadix16_lt (s : String) (v : Nat) (h : fromStrRadix16 s = some v) :
    v < 2 ^ 64 := by
  simp only [fromStrRadix16] at h
  split at h
  · exact absurd h (by simp)
  · rw [Option.bind_eq_some] at h
    rcases h with ⟨w, _, hv⟩
    split at hv
    · rw [Option.some_inj] at hv
      omega
    · exact absurd hv (by simp)

/-- The hex fee parser inherits the u64 bound. -/
theorem parseHexU64_lt (s : String) (v : Nat) (h : parseHexU64 s = some v) :
    v < 2 ^ 64 := by
  rw [parseHexU64] at h
  exact fromStrRadix16_lt _ v h

/-- Every parsed-or-zero fee fits in u64. -/
theorem feeValJson_lt (t : TxJson) : feeValJson t < 2 ^ 64 := by
  rw [feeValJson]
  cases h : t.maxPriorityFeePerGas.bind parseHexU64 with
  | none => norm_num
  | some v =>
    rcases Option.bind_eq_some.mp h with ⟨s, _, hp⟩
    simpa using parseHexU64_lt s v hp

/-- The ingestion-path HighPriorityFee trigger, characterized through the
code's median and the wrapping u64 product median * 3. -/
theorem highPriorityFeeTriggerJson_iff (blockTxs : List TxJson) (t : TxJson) :
    highPriorityFeeTriggerJson blockTxs t = true ↔
      ∃ m, medianOf (blockFeesJson blockTxs) = some m ∧ 0 < m
        ∧ m * 3 % 2 ^ 64 < feeValJson t := by
  unfold highPriorityFeeTriggerJson medianOf
  by_cases hf : 0 < feeValJson t
  · rw [if_pos hf]
    by_cases he : (blockFeesJson blockTxs).isEmpty
    · simp [he]
    · rw [if_neg he]
      simp only [Bool.not_eq_true] at he
      simp only [he, Bool.false_eq_true, if_false, decide_eq_true_eq]
      constructor
      · rintro ⟨h1, h2⟩
        exact ⟨medianCore (blockFeesJson blockTxs), rfl, h2, h1⟩
      · rintro ⟨m, hm, h2, h3⟩
        rw [Option.some_inj] at hm
        subst hm
        exact ⟨h3, h2⟩
  · rw [if_neg hf]
    simp only [Bool.false_eq_true, false_iff, not_exists]
    rintro m ⟨_, h2, h3⟩
    omega

/-- The detector-crate HighPriorityFee predicate, characterized through the
Decimal median; there is no positivity test on the median. -/
theorem is_high_priority_fee_outlier_iff (t : TxD) (blockTxs : List TxD) :
    is_high_priority_fee_outlier t blockTxs = true ↔
      ∃ f, t.fee = some f ∧ blockFeesD blockTxs ≠ []
        ∧ medianCoreD (blockFeesD blockTxs) * 3 < (f : ℚ) := by
  cases hf : t.fee with
  | none => simp [is_high_priority_fee_outlier, hf]
  | some f =>
    by_cases he : (blockFeesD blockTxs).isEmpty
    · rw [List.isEmpty_iff] at he
      simp [is_high_priority_fee_outlier, hf, he]
    · have hne : blockFeesD blockTxs ≠ [] := by simpa [List.isEmpty_iff] using he
      simp [is_high_priority_fee_outlier, hf, List.isEmpty_iff, hne, decide_eq_true_eq]

/-! ## Claim C1 -/

/-- Claim C1, amended: in the ingestion path the HighPriorityFee reason is
produced iff the block median exists, is positive, and the transaction's
fee exceeds the u64 product median * 3, which wraps modulo 2 to the 64;
whenever median * 3 stays below 2 to the 64 this is exactly the claimed
fee > 3 × median, and a fee equal to exactly three times the median, or a
zero fee, never triggers.  In the detector crate the positivity requirement
is absent — the reason is produced iff the fee field is present, the fee
list is nonempty and fee > 3 × median (exact Decimal arithmetic), so a
positive fee over an all-zero median does trigger there. -/
theorem high_priority_fee_trigger_characterization :
    (∀ (blockTxs : List TxJson) (t : TxJson),
        highPriorityFeeTriggerJson blockTxs t = true ↔
          ∃ m, medianOf (blockFeesJson blockTxs) = some m ∧ 0 < m
            ∧ m * 3 % 2 ^ 64 < feeValJson t)
    ∧ (∀ (t : TxD) (blockTxs : List TxD),
        is_high_priority_fee_outlier t blockTxs = true ↔
          ∃ f, t.fee = some f ∧ blockFeesD blockTxs ≠ []
            ∧ medianCoreD (blockFeesD blockTxs) * 3 < (f : ℚ))
    ∧ (∀ (blockTxs : List TxJson) (t : TxJson) (m : Nat),
        medianOf (blockFeesJson blockTxs) = some m → m * 3 < 2 ^ 64 →
          (highPriorityFeeTriggerJson blockTxs t = true ↔
            0 < m ∧ 3 * m < feeValJson t))
    ∧ (∀ (blockTxs : List TxJson) (t : TxJson) (m : Nat),
        medianOf (blockFeesJson blockTxs) = some m → feeValJson t = 3 * m →
          highPriorityFeeTriggerJson blockTxs t = false)
    ∧ (∀ (blockTxs : List TxJson) (t : TxJson),
        feeValJson t = 0 → highPriorityFeeTriggerJson blockTxs t = false) := by
  refine ⟨highPriorityFeeTriggerJson_iff, is_high_priority_fee_outlier_iff, ?_, ?_, ?_⟩
  · intro blockTxs t m hm hnw
    rw [highPriorityFeeTriggerJson_iff]
    constructor
    · rintro ⟨m2, hm2, hpos, hlt⟩
      rw [hm] at hm2
      rw [Option.some_inj] at hm2
      subst hm2
      rw [Nat.mod_eq_of_lt hnw] at hlt
      exact ⟨hpos, by omega⟩
    · rintro ⟨hpos, hlt⟩
      exact ⟨m, hm, hpos, by rw [Nat.mod_eq_of_lt hnw]; omega⟩
  · intro blockTxs t m hm hfee
    rcases h : highPriorityFeeTriggerJson blockTxs t with _ | _
    · rfl
    · exfalso
      rcases (highPriorityFeeTriggerJson_iff blockTxs t).mp h with ⟨m2, hm2, hpos, hlt⟩
      rw [hm] at hm2
      rw [Option.some_inj] at hm2
      subst hm2
      have hb := feeValJson_lt t
      omega
  · intro blockTxs t hfee
    rcases h : highPriorityFeeTriggerJson blockTxs t with _ | _
    · rfl
    · exfalso
      rcases (highPriorityFeeTriggerJson_iff blockTxs t).mp h with ⟨m2, _, hpos, hlt⟩
      omega

/-- A one-transaction block whose median is 1. -/
def txFeeOne : TxJson :=
  { hash := some "0xh1", fromAddr := some "0xa"
    maxPriorityFeePerGas := some "0x1", input := none }

/-- A transaction whose fee is exactly three times that median. -/
def txFeeThree : TxJson :=
  { hash := some "0xh2", fromAddr := some "0xb"
    maxPriorityFeePerGas := some "0x3", input := none }

/-- A transaction with priority fee zero. -/
def txFeeZero : TxJson :=
  { hash := some "0xh3", fromAddr := some "0xc"
    maxPriorityFeePerGas := some "0x0", input := none }

/-- A transaction with fee 10 over that block. -/
def txFeeTen : TxJson :=
  { hash := some "0xh4", fromAddr := some "0xd"
    maxPriorityFeePerGas := some "0xa", input := none }

/-- Witness for C1: over the block [txFeeOne] (median 1, no wrap), the
trigger reduces to the claimed fee > 3 × median form, the boundary fee
3 = 3 × 1 does not trigger, and a zero fee does not trigger. -/
theorem high_priority_fee_trigger_characterization_witness :
    (highPriorityFeeTriggerJson [txFeeOne] txFeeTen = true ↔
        0 < 1 ∧ 3 * 1 < feeValJson txFeeTen)
      ∧ highPriorityFeeTriggerJson [txFeeOne] txFeeThree = false
      ∧ highPriorityFeeTriggerJson [txFeeOne] txFeeZero = false :=
  ⟨high_priority_fee_trigger_characterization.2.2.1 [txFeeOne] txFeeTen 1
      (by decide) (by decide),
    high_priority_fee_trigger_characterization.2.2.2.1 [txFeeOne] txFeeThree 1
      (by decide) (by decide),
    high_priority_fee_trigger_characterization.2.2.2.2 [txFeeOne] txFeeZero (by decide)⟩

/-- Two detector-crate transactions with fee 0 and one with fee 1. -/
def txDZeroA : TxD := { fromAddr := "0xa", fee := some 0, input := [] }

/-- Second zero-fee transaction. -/
def txDZeroB : TxD := { fromAddr := "0xb", fee := some 0, input := [] }

/-- The fee-1 transaction of the counterexample block. -/
def txDOne : TxD := { fromAddr := "0xc", fee := some 1, input := [] }

/-- Counterexample to C1 as stated: in the detector crate, over the block
with fees [0, 0, 1] the median is 0 — not strictly positive — yet the fee-1
transaction is flagged as a HighPriorityFee outlier, because detectors.rs
has no median > 0 test.  The claim's iff requires median > 0 here. -/
theorem high_priority_fee_median_zero_cex :
    is_high_priority_fee_outlier txDOne [txDZeroA, txDZeroB, txDOne] = true
      ∧ medianCoreD (blockFeesD [txDZeroA, txDZeroB, txDOne]) = 0 := by
  constructor
  · simp [is_high_priority_fee_outlier, txDOne, txDZeroA, txDZeroB, blockFeesD, medianCoreD,
      sortFees, List.insertionSort, List.orderedInsert, decide_eq_true_eq]
  · simp [txDOne, txDZeroA, txDZeroB, blockFeesD, medianCoreD,
      sortFees, List.insertionSort, List.orderedInsert]

/-! ## Claim C2 -/

/-- Unfolding of the median body over the sorted list. -/
theorem medianCore_eq (l : List Nat) :
    medianCore l = if (sortFees l).length % 2 = 0
      then ((sortFees l).getD ((sortFees l).length / 2 - 1) 0
          + (sortFees l).getD ((sortFees l).length / 2) 0) % 2 ^ 64 / 2
      else (sortFees l).getD ((sortFees l).length / 2) 0 := rfl

/-- Claim C2, amended: the median used by the HighPriorityFee rule is
computed over the priority fees of the transactions whose
maxPriorityFeePerGas is present and parsable (a missing field is excluded
from the list, not treated as 0); the list is sorted ascending, the even
case halves the u64 sum of the two middle values — the sum wraps modulo
2 to the 64, so the result is the claimed truncated average exactly when
the middle sum stays below 2 to the 64 — the odd case takes the exact
middle, and when the fee list is empty HighPriorityFee never triggers. -/
theorem median_sorted_middle_characterization :
    (∀ l : List Nat, l ≠ [] → ∃ s : List Nat, l.Perm s ∧ s.Sorted (fun a b => a ≤ b)
        ∧ medianOf l = some (if s.length % 2 = 0
            then (s.getD (s.length / 2 - 1) 0 + s.getD (s.length / 2) 0) % 2 ^ 64 / 2
            else s.getD (s.length / 2) 0)
        ∧ (s.getD (s.length / 2 - 1) 0 + s.getD (s.length / 2) 0 < 2 ^ 64 →
            medianOf l = some (if s.length % 2 = 0
              then (s.getD (s.length / 2 - 1) 0 + s.getD (s.length / 2) 0) / 2
              else s.getD (s.length / 2) 0)))
    ∧ (∀ (blockTxs : List TxJson) (t : TxJson),
        blockFeesJson blockTxs = [] → highPriorityFeeTriggerJson blockTxs t = false) := by
  constructor
  · intro l hl
    refine ⟨sortFees l, (List.perm_insertionSort _ l).symm, List.sorted_insertionSort _ l,
      ?_, ?_⟩
    · rw [medianOf, if_neg (by simpa [List.isEmpty_iff] using hl)]
      rfl
    · intro hlt
      rw [medianOf, if_neg (by simpa [List.isEmpty_iff] using hl), Option.some_inj,
        medianCore_eq]
      by_cases hev : (sortFees l).length % 2 = 0
      · rw [if_pos hev, if_pos hev, Nat.mod_eq_of_lt hlt]
      · rw [if_neg hev, if_neg hev]
  · intro blockTxs t h
    unfold highPriorityFeeTriggerJson
    rw [h]
    by_cases hf : 0 < feeValJson t
    · rw [if_pos hf]
      rfl
    · rw [if_neg hf]

/-- Witness for C2: the fee list [2, 1] has the sorted-middle median (its
middle sum 3 does not wrap, so the exact-average form applies too), and
over a block with no parsable fee the rule never fires. -/
theorem median_sorted_middle_characterization_witness :
    (∃ s : List Nat, List.Perm [2, 1] s ∧ s.Sorted (fun a b => a ≤ b)
        ∧ medianOf [2, 1] = some (if s.length % 2 = 0
            then (s.getD (s.length / 2 - 1) 0 + s.getD (s.length / 2) 0) % 2 ^ 64 / 2
            else s.getD (s.length / 2) 0)
        ∧ (s.getD (s.length / 2 - 1) 0 + s.getD (s.length / 2) 0 < 2 ^ 64 →
            medianOf [2, 1] = some (if s.length % 2 = 0
              then (s.getD (s.length / 2 - 1) 0 + s.getD (s.length / 2) 0) / 2
              else s.getD (s.length / 2) 0)))
    ∧ highPriorityFeeTriggerJson [] txFeeThree = false :=
  ⟨median_sorted_middle_characterization.1 [2, 1] (by simp),
    median_sorted_middle_characterization.2 [] txFeeThree rfl⟩

/-- A transaction with fee 7 in the C2 counterexample block. -/
def txFeeSeven : TxJson :=
  { hash := some "0xh7", fromAddr := some "0xa"
    maxPriorityFeePerGas := some "0x7", input := none }

/-- A transaction whose maxPriorityFeePerGas field is missing. -/
def txFeeMissing : TxJson :=
  { hash := some "0xh8", fromAddr := some "0xb"
    maxPriorityFeePerGas := none, input := none }

/-- The C2 counterexample block: fees 7, 1 and one missing field. -/
def cexBlockC2 : List TxJson := [txFeeSeven, txFeeOne, txFeeMissing]

/-- Counterexample to C2 as stated: with transactions carrying fees 7 and 1
and a third transaction missing the field, the code's fee list is [7, 1]
and its median 4, while the claimed fee-over-every-transaction list with
missing-as-0 is [7, 1, 0] with median 1; under the claimed median the fee-7
transaction satisfies median > 0 and fee > 3 × median, yet the code does
not produce the reason.  So the rule's median excludes missing fields
rather than counting them as 0. -/
theorem median_missing_excluded_cex :
    blockFeesJson cexBlockC2 = [7, 1]
      ∧ medianOf (blockFeesJson cexBlockC2) = some 4
      ∧ cexBlockC2.map feeValJson = [7, 1, 0]
      ∧ medianOf (cexBlockC2.map feeValJson) = some 1
      ∧ feeValJson txFeeSeven = 7 ∧ 3 * 1 < 7
      ∧ highPriorityFeeTriggerJson cexBlockC2 txFeeSeven = false := by
  refine ⟨by decide, by decide, by decide, by decide, by decide, by decide, by decide⟩

/-! ## Claim C4 -/

/-- Claim C4, amended: RepeatedSender is produced iff the sender occurs in
at least 3 transactions of the block (self included) and a count of exactly
2 never triggers, but the comparison is not case-normalized in the
ingestion path: the raw JSON from strings are compared byte for byte (and
two absent fields compare equal); only the detector crate, whose senders
are parsed addresses in canonical rendering, is insensitive to the JSON
spelling. -/
theorem repeated_sender_count_characterization :
    (∀ (blockTxs : List TxJson) (t : TxJson),
        repeatedSenderJson blockTxs t = true ↔
          3 ≤ blockTxs.countP (fun u => u.fromAddr == t.fromAddr))
    ∧ (∀ (t : TxD) (blockTxs : List TxD),
        is_repeated_sender t blockTxs = true ↔
          3 ≤ blockTxs.countP (fun u => u.fromAddr == t.fromAddr))
    ∧ (∀ (blockTxs : List TxJson) (t : TxJson),
        blockTxs.countP (fun u => u.fromAddr == t.fromAddr) = 2 →
          repeatedSenderJson blockTxs t = false)
    ∧ (∀ (t : TxD) (blockTxs : List TxD),
        blockTxs.countP (fun u => u.fromAddr == t.fromAddr) = 2 →
          is_repeated_sender t blockTxs = false) := by
  have h1 : ∀ (blockTxs : List TxJson) (t : TxJson),
      repeatedSenderJson blockTxs t = true ↔
        3 ≤ blockTxs.countP (fun u => u.fromAddr == t.fromAddr) := by
    intro blockTxs t
    simp [repeatedSenderJson, List.countP_eq_length_filter]
  have h2 : ∀ (t : TxD) (blockTxs : List TxD),
      is_repeated_sender t blockTxs = true ↔
        3 ≤ blockTxs.countP (fun u => u.fromAddr == t.fromAddr) := by
    intro t blockTxs
    simp [is_repeated_sender, List.countP_eq_length_filter]
  refine ⟨h1, h2, ?_, ?_⟩
  · intro blockTxs t hc
    rcases h : repeatedSenderJson blockTxs t with _ | _
    · rfl
    · have := (h1 blockTxs t).mp h
      omega
  · intro t blockTxs hc
    rcases h : is_repeated_sender t blockTxs with _ | _
    · rfl
    · have := (h2 t blockTxs).mp h
      omega

/-- A transaction whose JSON from field is the upper-case spelling. -/
def txFromUpper : TxJson :=
  { hash := some "0xh1", fromAddr := some "0xAB"
    maxPriorityFeePerGas := none, input := none }

/-- The same address spelled lower-case in the JSON. -/
def txFromLower : TxJson :=
  { hash := some "0xh2", fromAddr := some "0xab"
    maxPriorityFeePerGas := none, input := none }

/-- A second transaction with the upper-case spelling. -/
def txFromUpperB : TxJson :=
  { hash := some "0xh3", fromAddr := some "0xAB"
    maxPriorityFeePerGas := none, input := none }

/-- The C4 counterexample block: one address, spelled AB, ab, AB. -/
def cexBlockC4 : List TxJson := [txFromUpper, txFromLower, txFromUpperB]

/-- Counterexample to C4 as stated: in a block whose three transactions
carry the same sender address spelled 0xAB, 0xab, 0xAB, the
case-normalized sender count is 3, so the claim requires RepeatedSender to
trigger — but the ingestion path compares the raw strings, counts only 2,
and does not produce the reason. -/
theorem repeated_sender_case_sensitive_cex :
    repeatedSenderJson cexBlockC4 txFromUpper = false
      ∧ cexBlockC4.countP
          (fun u => u.fromAddr.map strLower == txFromUpper.fromAddr.map strLower) = 3
      ∧ cexBlockC4.countP (fun u => u.fromAddr == txFromUpper.fromAddr) = 2 := by
  refine ⟨by decide, by decide, by decide⟩

/-- Witness for C4: a block with exactly two same-sender transactions does
not trigger. -/
theorem repeated_sender_count_characterization_witness :
    repeatedSenderJson [txFromUpper, txFromUpperB] txFromUpper = false :=
  repeated_sender_count_characterization.2.2.1 [txFromUpper, txFromUpperB] txFromUpper
    (by decide)

/-! ## Claim C5 -/

/-- Claim C5, amended: AtomicMultiswap is produced iff at least 2 of the
configured selector substrings occur in the scanned string, a single match
or empty calldata never triggers; but only the detector crate scans the
lower-cased prefix-free hex encoding of the calldata bytes — the ingestion
path scans the raw JSON input string as sent by the node, with its 0x
marker and without case normalization, so upper-case hex defeats the
match there. -/
theorem atomic_multiswap_pattern_characterization :
    (∀ t : TxJson, atomicMultiswapJson t = true ↔
        ∃ s, t.input = some s
          ∧ 2 ≤ (swapPatternsJson.filter (fun p => containsSub p.data s.data)).length)
    ∧ (∀ t : TxD, is_atomic_multiswap t = true ↔
        t.input ≠ []
          ∧ 2 ≤ (swapPatternsD.filter
              (fun p => containsSub p.data (hexEncode t.input).data)).length)
    ∧ (∀ t : TxJson, t.input = some "0x" → atomicMultiswapJson t = false)
    ∧ (∀ (a : String) (f : Option Nat),
        is_atomic_multiswap { fromAddr := a, fee := f, input := [] } = false) := by
  refine ⟨?_, ?_, ?_, ?_⟩
  · intro t
    cases ht : t.input with
    | none => simp [atomicMultiswapJson, ht]
    | some s => simp [atomicMultiswapJson, ht, decide_eq_true_eq]
  · intro t
    by_cases he : t.input.isEmpty
    · rw [List.isEmpty_iff] at he
      simp [is_atomic_multiswap, he]
    · have hne : t.input ≠ [] := by simpa [List.isEmpty_iff] using he
      simp [is_atomic_multiswap, List.isEmpty_iff, hne, decide_eq_true_eq]
  · intro t h
    simp only [atomicMultiswapJson, h]
    decide
  · intro a f
    rfl

/-- A transaction whose JSON input is upper-case hex with two selectors. -/
def txInputUpper : TxJson :=
  { hash := some "0xh1", fromAddr := some "0xa"
    maxPriorityFeePerGas := none, input := some "0x7FF36AB5414BF389" }

/-- Counterexample to C5 as stated: the calldata bytes 7ff36ab5414bf389
arrive spelled upper-case in the JSON; their lower-cased prefix-free hex
encoding contains two configured selectors, so the claim requires
AtomicMultiswap to trigger — but the ingestion path scans the raw string
and produces nothing. -/
theorem atomic_multiswap_case_sensitive_cex :
    atomicMultiswapJson txInputUpper = false
      ∧ strLower "7FF36AB5414BF389" = "7ff36ab5414bf389"
      ∧ 2 ≤ (swapPatternsJson.filter
          (fun p => containsSub p.data (strLower "7FF36AB5414BF389").data)).length := by
  refine ⟨by decide, by decide, by decide⟩

/-- A transaction with empty calldata, rendered 0x by the node. -/
def txInputEmpty : TxJson :=
  { hash := some "0xh1", fromAddr := some "0xa"
    maxPriorityFeePerGas := none, input := some "0x" }

/-- Witness for C5: empty calldata triggers in neither path. -/
theorem atomic_multiswap_pattern_characterization_witness :
    atomicMultiswapJson txInputEmpty = false
      ∧ is_atomic_multiswap { fromAddr := "0xa", fee := none, input := [] } = false :=
  ⟨atomic_multiswap_pattern_characterization.2.2.1 txInputEmpty rfl,
    atomic_multiswap_pattern_characterization.2.2.2 "0xa" none⟩

/-- On all-ASCII lists the UTF-8 byte length is the char count. -/
theorem utf8Bytes_ascii (cs : List Char) (h : ∀ c ∈ cs, utf8Width c = 1) :
    utf8Bytes cs = cs.length := by
  induction cs with
  | nil => rfl
  | cons c rest ih =>
    rw [utf8Bytes, h c (by simp), ih (fun x hx => h x (by simp [hx]))]
    simp only [List.length_cons]
    omega

/-- On all-ASCII lists every byte index is a boundary: the slice succeeds
and returns the first n chars. -/
theorem sliceBytes_ascii (cs : List Char) :
    ∀ n, (∀ c ∈ cs, utf8Width c = 1) → n ≤ cs.length →
      sliceBytes n cs = some (cs.take n) := by
  induction cs with
  | nil =>
    intro n _ hn
    have h0 : n = 0 := by simpa using hn
    rw [h0]
    rfl
  | cons c rest ih =>
    intro n hascii hn
    cases n with
    | zero => rfl
    | succ m =>
      rw [sliceBytes, if_pos (by rw [hascii c (by simp)]; omega), hascii c (by simp)]
      simp only [Nat.add_sub_cancel]
      rw [ih m (fun x hx => hascii x (by simp [hx])) (by simpa using hn)]
      simp

/-- Elements picked by getD from an all-ASCII list are ASCII. -/
theorem utf8Width_getD (l : List Char) (n : Nat) (d : Char)
    (hl : ∀ c ∈ l, utf8Width c = 1) (hd : utf8Width d = 1) :
    utf8Width (l.getD n d) = 1 := by
  rw [List.getD_eq_getD_get? ..]
  cases h : l.get? n with
  | none => simpa [h] using hd
  | some c =>
    have := List.get?_mem h
    simpa [h] using hl c this

/-- Every char hex::encode emits is ASCII. -/
theorem hexDigitChar_ascii (n : Nat) : utf8Width (hexDigitChar n) = 1 := by
  rw [hexDigitChar]
  exact utf8Width_getD _ n _ (by decide) (by decide)

/-- The whole hex encoding is ASCII. -/
theorem hexEncode_ascii (bytes : List Nat) :
    ∀ c ∈ (hexEncode bytes).data, utf8Width c = 1 := by
  rw [hexEncode]
  induction bytes with
  | nil => simp
  | cons b rest ih =>
    intro c hc
    simp only [List.foldr_cons, List.mem_cons] at hc
    rcases hc with hc | hc | hc
    · rw [hc]; exact hexDigitChar_ascii _
    · rw [hc]; exact hexDigitChar_ascii _
    · exact ih c hc

/-- Every UTF-8 char spans at least one byte. -/
theorem utf8Width_pos (c : Char) : 1 ≤ utf8Width c := by
  rw [utf8Width]
  split_ifs <;> omega

/-- When some k-char prefix spans exactly n bytes — that is, byte n is a
character boundary — the n-byte slice succeeds and returns that prefix. -/
theorem sliceBytes_boundary (cs : List Char) :
    ∀ n k, utf8Bytes (cs.take k) = n → sliceBytes n cs = some (cs.take k) := by
  induction cs with
  | nil =>
    intro n k h
    simp only [List.take_nil] at h ⊢
    rw [show n = 0 from by simpa [utf8Bytes] using h.symm]
    rfl
  | cons c rest ih =>
    intro n k h
    cases k with
    | zero =>
      simp only [List.take_zero, utf8Bytes] at h
      rw [show n = 0 from h.symm]
      rfl
    | succ k2 =>
      rw [List.take_succ_cons, utf8Bytes] at h
      have hw : 1 ≤ utf8Width c := utf8Width_pos c
      cases n with
      | zero => omega
      | succ n2 =>
        simp only [sliceBytes]
        rw [if_pos (by omega), ih (n2 + 1 - utf8Width c) k2 (by omega)]
        simp [List.take_succ_cons]

/-! ## Claim C9 -/

/-- Claim C9, amended: building the calldata summary is total exactly as
far as byte 200 falls on a character boundary: a string of at most 200
bytes is returned unchanged, and a longer string some k-char prefix of
which spans exactly 200 bytes is summarized as that prefix plus an
ellipsis marker; on every all-ASCII input this gives the
unchanged-or-first-200-chars form, and the analyzer path only ever slices
its own (ASCII) hex encoding and so never panics; but the ingestion path
slices the raw JSON string, and a non-ASCII input whose byte 200 falls
inside a character makes it panic. -/
theorem calldata_summary_ascii_total :
    (∀ s : String, utf8Bytes s.data ≤ 200 → truncate200 s = some s)
    ∧ (∀ (s : String) (k : Nat), 200 < utf8Bytes s.data →
        utf8Bytes (s.data.take k) = 200 →
          truncate200 s = some (String.mk (s.data.take k) ++ "..."))
    ∧ (∀ s : String, (∀ c ∈ s.data, utf8Width c = 1) →
        truncate200 s = some (if s.data.length ≤ 200 then s
          else String.mk (s.data.take 200) ++ "..."))
    ∧ (∀ input : List Nat, ∃ r, calldataSummaryAnalyzer input = some r) := by
  have main : ∀ s : String, (∀ c ∈ s.data, utf8Width c = 1) →
      truncate200 s = some (if s.data.length ≤ 200 then s
        else String.mk (s.data.take 200) ++ "...") := by
    intro s hascii
    rw [truncate200, utf8Bytes_ascii s.data hascii]
    by_cases h : 200 < s.data.length
    · rw [if_pos h, if_neg (by omega), sliceBytes_ascii s.data 200 hascii (by omega)]
      rfl
    · rw [if_neg h, if_pos (by omega)]
  refine ⟨?_, ?_, main, ?_⟩
  · intro s hle
    rw [truncate200, if_neg (by omega)]
  · intro s k hgt hk
    rw [truncate200, if_pos hgt, sliceBytes_boundary s.data 200 k hk]
    rfl
  · intro input
    by_cases he : input.isEmpty
    · exact ⟨none, by rw [calldataSummaryAnalyzer, if_pos he]⟩
    · refine ⟨some (if (hexEncode input).data.length ≤ 200 then hexEncode input
        else String.mk ((hexEncode input).data.take 200) ++ "..."), ?_⟩
      rw [calldataSummaryAnalyzer, if_neg he, main (hexEncode input) (hexEncode_ascii input)]
      rfl

/-- An ASCII input string of 201 chars. -/
def asciiCalldata : String := String.mk (List.replicate 201 'a')

/-- A 202-byte non-ASCII string whose byte 200 is a character boundary
(after 100 of its 101 two-byte chars). -/
def nonAsciiBoundary : String := String.mk (List.replicate 101 'é')

set_option maxRecDepth 4000 in
/-- Witness for C9: the 202-byte non-ASCII string cuts on a boundary after
100 chars and is truncated without a panic, and the 201-char ASCII string
is truncated to its first 200 chars plus the ellipsis marker. -/
theorem calldata_summary_ascii_total_witness :
    truncate200 nonAsciiBoundary = some (String.mk (nonAsciiBoundary.data.take 100) ++ "...")
      ∧ truncate200 asciiCalldata = some (if asciiCalldata.data.length ≤ 200 then asciiCalldata
          else String.mk (asciiCalldata.data.take 200) ++ "...") :=
  ⟨calldata_summary_ascii_total.2.1 nonAsciiBoundary 100 (by decide) (by decide),
    calldata_summary_ascii_total.2.2.1 asciiCalldata (by
      intro c hc
      rw [show asciiCalldata.data = List.replicate 201 'a' from rfl] at hc
      rw [List.eq_of_mem_replicate hc]
      rfl)⟩

/-- A 201-byte string whose byte 200 falls inside the two-byte char é. -/
def nonAsciiCalldata : String := String.mk ('a' :: List.replicate 100 'é')

set_option maxRecDepth 4000 in
/-- Counterexample to C9 as stated: this 201-byte JSON input string is
longer than 200 bytes, but byte 200 is not a character boundary, so the
ingestion path's slice panics (modelled as none) instead of producing the
claimed 200-byte summary — building the summary is not total. -/
theorem calldata_slice_non_boundary_cex :
    truncate200 nonAsciiCalldata = none
      ∧ utf8Bytes nonAsciiCalldata.data = 201 := by
  refine ⟨by decide, by decide⟩

/-! ## Claim C6 -/

/-- Claim C6: when a block is ingested, update_builder inserts a row with
is_known = false for the block's fee recipient exactly when no row for it
exists; when a row already exists (known or unknown) the whole store — in
particular every field of that row — is left unchanged, and a second block
from the same fee recipient leaves the store as after the first. -/
theorem builder_upsert_insert_iff_absent (store : List BuilderRow) (fr : String) :
    (findBuilder store fr = none →
        update_builder store fr
          = store ++ [{ feeRecipient := fr, builderName := none, isKnown := false }])
    ∧ (∀ row, findBuilder store fr = some row → update_builder store fr = store)
    ∧ update_builder (update_builder store fr) fr = update_builder store fr := by
  refine ⟨?_, ?_, ?_⟩
  · intro h
    rw [update_builder, (buildersHas_eq_false_iff store fr).mpr h, if_neg]
    exact Bool.false_ne_true
  · intro row h
    have hb : buildersHas store fr = true := by
      rcases hb : buildersHas store fr with _ | _
      · rw [(buildersHas_eq_false_iff store fr).mp hb] at h
        exact absurd h (by simp)
      · rfl
    rw [update_builder, if_pos hb]
  · rcases hb : buildersHas store fr with _ | _
    · have h1 : update_builder store fr
          = store ++ [{ feeRecipient := fr, builderName := none, isKnown := false }] := by
        rw [update_builder, if_neg]
        rw [hb]
        exact Bool.false_ne_true
      rw [h1, update_builder, if_pos (buildersHas_self store fr)]
    · have h1 : update_builder store fr = store := by rw [update_builder, if_pos hb]
      rw [h1, h1]

/-- Witness for C6 at the empty store: the first observation of a fee
recipient inserts the unknown row and the second leaves it alone. -/
theorem builder_upsert_insert_iff_absent_witness :
    (update_builder [] "0xaaaa"
        = [] ++ [{ feeRecipient := "0xaaaa", builderName := none, isKnown := false }])
    ∧ update_builder (update_builder [] "0xaaaa") "0xaaaa" = update_builder [] "0xaaaa" :=
  ⟨(builder_upsert_insert_iff_absent [] "0xaaaa").1 rfl,
    (builder_upsert_insert_iff_absent [] "0xaaaa").2.2⟩

/-! ## Claim C7 -/

/-- Claim C7: for every ingested block, the stored totalPriorityFees equals
the exact sum, over all transactions contained in the block, of each
transaction's parsed maxPriorityFeePerGas, with 0 contributed by a
transaction whose field is absent or unparsable (feeValJson is exactly that
parsed-or-zero value). -/
theorem total_priority_fees_exact_sum (txs : List TxJson) :
    totalPriorityFeesJson txs = (txs.map feeValJson).sum := by
  rw [totalPriorityFeesJson, totalFees_foldl]
  omega

/-! ## Claim C8 -/

/-- Claim C8: when the store query behind the tagger's refresh fails, the
error is returned and the in-memory fee-recipient set is exactly its prior
value; in particular a failed refresh never turns a nonempty set into an
empty one.  (In the source the query's error propagation sits before the
clear() call, which is what the refresh definition captures.) -/
theorem tagger_refresh_error_preserves_set (prior : List String) (e : String) :
    refresh prior (.error e) = (prior, some e)
      ∧ (prior ≠ [] → (refresh prior (.error e)).1 ≠ []) := by
  refine ⟨rfl, ?_⟩
  intro h
  simpa [refresh] using h

/-- Witness for C8: a one-element set survives a failed refresh. -/
theorem tagger_refresh_error_preserves_set_witness :
    (refresh ["0xabc"] (.error "store unavailable") = (["0xabc"], some "store unavailable"))
      ∧ (refresh ["0xabc"] (.error "store unavailable")).1 ≠ [] :=
  ⟨(tagger_refresh_error_preserves_set ["0xabc"] "store unavailable").1,
    (tagger_refresh_error_preserves_set ["0xabc"] "store unavailable").2 (by simp)⟩

/-! ## Claim C10 -/

/-- Claim C10: a transaction whose from field is absent is not skipped by
the per-block ingestion path — it is persisted with sender_address set to
the literal unknown; and because the RepeatedSender count compares the raw
JSON from values (where two absent fields compare equal), in a block with
at least 3 from-less transactions each such transaction receives the
repeated-sender reason code.  (The transaction must carry a hash, the only
hard error of the extraction, and its calldata must not hit the slicing
panic of C9.) -/
theorem missing_from_unknown_sender_repeated
    (blockTxs : List TxJson) (t : TxJson) (i : Nat) (h : String)
    (hhash : t.hash = some h)
    (hfrom : t.fromAddr = none)
    (hslice : ∀ s, t.input = some s → (truncate200 s).isSome = true) :
    ∃ row, process_transaction_json blockTxs t i = .ok row
      ∧ row.senderAddress = "unknown"
      ∧ (3 ≤ blockTxs.countP (fun u => u.fromAddr == none) →
          "repeated_sender_sequence" ∈ row.mevReasonCodes) := by
  have hsum : ∃ sm, calldataSummaryOpt t.input = some sm := by
    cases hin : t.input with
    | none => exact ⟨none, rfl⟩
    | some s =>
      rcases Option.isSome_iff_exists.mp (hslice s hin) with ⟨v, hv⟩
      exact ⟨some v, by rw [calldataSummaryOpt, hv]; rfl⟩
  rcases hsum with ⟨sm, hsm⟩
  refine ⟨{ txHash := h
            positionIndex := i
            senderAddress := t.fromAddr.getD "unknown"
            maxPriorityFee := Nat.repr (feeValJson t)
            calldataSummary := sm
            isMevCandidate := !(mevReasonsJson blockTxs t i).isEmpty
            mevReasonCodes := mevReasonsJson blockTxs t i }, ?_, ?_, ?_⟩
  · simp only [process_transaction_json, hhash, hsm]
  · rw [hfrom]
    rfl
  · intro hc
    have hrs : repeatedSenderJson blockTxs t = true := by
      rw [repeatedSenderJson, hfrom]
      apply decide_eq_true
      rw [← List.countP_eq_length_filter ..]
      exact hc
    simp [mevReasonsJson, hrs]

/-- A transaction whose from field is absent. -/
def txNoFrom : TxJson :=
  { hash := some "0xh1", fromAddr := none
    maxPriorityFeePerGas := none, input := none }

/-- Witness for C10: in a block of three from-less transactions, the first
one is persisted with sender unknown and carries the repeated-sender
reason. -/
theorem missing_from_unknown_sender_repeated_witness :
    ∃ row, process_transaction_json [txNoFrom, txNoFrom, txNoFrom] txNoFrom 0 = .ok row
      ∧ row.senderAddress = "unknown"
      ∧ "repeated_sender_sequence" ∈ row.mevReasonCodes := by
  rcases missing_from_unknown_sender_repeated [txNoFrom, txNoFrom, txNoFrom] txNoFrom 0 "0xh1"
      rfl rfl (fun s hs => by simp [txNoFrom] at hs) with ⟨row, h1, h2, h3⟩
  exact ⟨row, h1, h2, h3 (by decide)⟩

/-! ## Claim C3 -/

/-- The cursor after one loop body is the block number (on ingest success)
or the old cursor. -/
theorem catchUpStep_cases (f : Nat → FetchOutcome) (c n : Nat) :
    catchUpStep f c n = n ∨ catchUpStep f c n = c := by
  cases h : f n with
  | fetched ok =>
    cases ok
    · right; simp [catchUpStep, h]
    · left; simp [catchUpStep, h]
  | absent => right; simp [catchUpStep, h]
  | rpcError => right; simp [catchUpStep, h]

/-- The trace visits exactly the given block numbers, whatever the fetch
and ingest outcomes. -/
theorem catchUpTraceAux_map_fst (f : Nat → FetchOutcome) :
    ∀ (ns : List Nat) (c : Nat), (catchUpTraceAux f c ns).map (fun e => e.1) = ns := by
  intro ns
  induction ns with
  | nil => intro c; rfl
  | cons n rest ih =>
    intro c
    simp only [catchUpTraceAux, List.map_cons]
    rw [ih]

/-- Cursor behaviour of a single loop body, stated for the three fetch
outcomes at once. -/
theorem catchUpStep_spec (f : Nat → FetchOutcome) (c n : Nat) (hcn : c < n) :
    c < n ∧ (catchUpStep f c n = n ↔ f n = FetchOutcome.fetched true)
      ∧ (f n ≠ FetchOutcome.fetched true → catchUpStep f c n = c) := by
  refine ⟨hcn, ?_, ?_⟩
  · cases h : f n with
    | fetched ok =>
      cases ok
      · simp [catchUpStep, h]
        omega
      · simp [catchUpStep, h]
    | absent =>
      simp [catchUpStep, h]
      omega
    | rpcError =>
      simp [catchUpStep, h]
      omega
  · intro hne
    cases h : f n with
    | fetched ok =>
      cases ok
      · simp [catchUpStep, h]
      · exact absurd h hne
    | absent => simp [catchUpStep, h]
    | rpcError => simp [catchUpStep, h]

/-- Per-entry cursor behaviour of the walk over an ascending range whose
entries all exceed the incoming cursor. -/
theorem catchUpTraceAux_range_spec (f : Nat → FetchOutcome) :
    ∀ (k s c : Nat), c < s →
      ∀ n b a, (n, b, a) ∈ catchUpTraceAux f c (List.range' s k) →
        b < n ∧ (a = n ↔ f n = FetchOutcome.fetched true)
          ∧ (f n ≠ FetchOutcome.fetched true → a = b) := by
  intro k
  induction k with
  | zero =>
    intro s c _ n b a hmem
    simp [catchUpTraceAux] at hmem
  | succ m ih =>
    intro s c hcs n b a hmem
    rw [List.range'_succ] at hmem
    rcases List.mem_cons.mp hmem with heq | htail
    · have hps : n = s ∧ b = c ∧ a = catchUpStep f c s := by
        simpa [Prod.ext_iff] using heq
      obtain ⟨h1, h2, h4⟩ := hps
      rw [h1, h2, h4]
      exact catchUpStep_spec f c s hcs
    · refine ih (s + 1) (catchUpStep f c s) ?_ n b a htail
      rcases catchUpStep_cases f c s with h | h <;> omega

/-- The loop's final cursor is the last after-cursor of the trace. -/
theorem catchUpTraceAux_foldl (f : Nat → FetchOutcome) :
    ∀ (ns : List Nat) (c : Nat),
      List.foldl (catchUpStep f) c ns
        = ((catchUpTraceAux f c ns).map (fun e => e.2.2)).getLastD c := by
  intro ns
  induction ns with
  | nil => intro c; rfl
  | cons n rest ih =>
    intro c
    simp only [List.foldl_cons, catchUpTraceAux, List.map_cons]
    rw [List.getLastD_cons, ih]

/-- Claim C3: in one iteration of the catch-up loop the walk visits every
block number of the computed range cursor+1 .. H in order regardless of
per-block outcomes (no failure stops it), and at each visited n the cursor
advances to n exactly when block n was fetched and its ingestion succeeded,
while on a fetch failure, an absent block or an ingestion failure it keeps
its previous value; the loop's final cursor is the last after-value of
that walk. -/
theorem catchup_range_cursor_advance (f : Nat → FetchOutcome) (cursor H : Nat) :
    ((catchUpTrace f cursor H).map (fun e => e.1) = List.range' (cursor + 1) (H - cursor))
    ∧ (∀ n b a, (n, b, a) ∈ catchUpTrace f cursor H →
        b < n ∧ (a = n ↔ f n = FetchOutcome.fetched true)
          ∧ (f n ≠ FetchOutcome.fetched true → a = b))
    ∧ catchUpRange f cursor H
        = ((catchUpTrace f cursor H).map (fun e => e.2.2)).getLastD cursor := by
  refine ⟨catchUpTraceAux_map_fst f _ cursor, ?_, catchUpTraceAux_foldl f _ cursor⟩
  intro n b a hmem
  exact catchUpTraceAux_range_spec f (H - cursor) (cursor + 1) cursor (by omega) n b a hmem

/-- A fetch oracle where block 101 fails at the RPC, block 102 is fetched
but fails ingestion, and block 103 succeeds. -/
def fetchEx : Nat → FetchOutcome := fun n =>
  if n = 101 then .rpcError else if n = 102 then .fetched false else .fetched true

/-- Witness for C3: from cursor 100 with height 103 the walk still visits
101, 102, 103 despite the two failures, and at the successful block 103
the advance iff is discharged concretely. -/
theorem catchup_range_cursor_advance_witness :
    ((catchUpTrace fetchEx 100 103).map (fun e => e.1) = List.range' 101 3)
      ∧ (100 < 103 ∧ ((103 : Nat) = 103 ↔ fetchEx 103 = FetchOutcome.fetched true)
          ∧ (fetchEx 103 ≠ FetchOutcome.fetched true → (103 : Nat) = 100)) :=
  ⟨(catchup_range_cursor_advance fetchEx 100 103).1,
    (catchup_range_cursor_advance fetchEx 100 103).2.1 103 100 103 (by decide)⟩

end Hirami
